import Mathlib

/-!
Verification of the Budget Tracker app (app.js, Firebase variant) against its
natural-language specification.

Shallow embedding conventions:
* Monetary amounts and expense ids inside documents are modelled as exact
  rationals. Raw parseFloat results, as tested by the form-handler guards,
  are modelled by the JsNum type below, which also carries NaN and the two
  infinities, because the source guards test only isNaN and sign, never
  finiteness.
* A JavaScript object used as a string-keyed map (the expenses field) is
  modelled as an association list with unique keys; property read, write and
  delete act on the first matching key, which agrees with JavaScript object
  semantics where keys are unique by construction.
* The module-level mutable state of app.js (data, currentUser, saveTimeout,
  activeBudgetId, localStorage, Firestore writes) is modelled as an explicit
  SyncState record, with each event handler of the source becoming a state
  transition function. The single debounce timer is a Boolean flag; firing it
  reads the then-current state, exactly as the setTimeout closure in saveData
  reads the module variables at fire time.
-/

namespace BudgetApp

/-- An expense record as pushed by addExpense in app.js:
\x7b id, amount, category, note, time \x7d. -/
structure Expense where
  id : ℚ
  amount : ℚ
  category : String
  note : String
  time : String
deriving DecidableEq

/-- The expenses field of the budget document: a JavaScript object keyed by
date strings, each value an array of expenses. Modelled as an association
list. -/
abbrev Expenses := List (String × List Expense)

/-- Property read on a JS object: value at the first matching key. -/
def objGet {α : Type} : List (String × α) → String → Option α
  | [], _ => none
  | p :: t, k => if p.1 == k then some p.2 else objGet t k

/-- Property write on a JS object: replace the value at an existing key,
otherwise append the new key at the end (JS insertion order). -/
def objSet {α : Type} : List (String × α) → String → α → List (String × α)
  | [], k, v => [(k, v)]
  | p :: t, k, v => if p.1 == k then (k, v) :: t else p :: objSet t k v

/-- Property delete on a JS object (the delete operator). -/
def objDelete {α : Type} : List (String × α) → String → List (String × α)
  | [], _ => []
  | p :: t, k => if p.1 == k then objDelete t k else p :: objDelete t k

/-- The in-memory budget document: exactly the fields kept in the module
variable data of app.js. -/
structure BudgetDoc where
  dailyGoal : ℚ
  customCategories : List String
  expenses : Expenses
deriving DecidableEq

/-- defaultData() from app.js: goal 50, no custom categories, no expenses. -/
def defaultData : BudgetDoc :=
  { dailyGoal := 50, customCategories := [], expenses := [] }

/-- getExpensesForDate: data.expenses[dateStr] or []. -/
def getExpensesForDate (doc : BudgetDoc) (dateStr : String) : List Expense :=
  (objGet doc.expenses dateStr).getD []

/-- getDayTotal: reduce((sum, e) => sum + e.amount, 0) over the bucket. -/
def getDayTotal (doc : BudgetDoc) (dateStr : String) : ℚ :=
  (getExpensesForDate doc dateStr).foldl (fun s e => s + e.amount) 0

/-- addExpense from app.js: create the bucket if absent, then push a new
expense record. The impure id and time generation (Date.now() + Math.random(),
toISOString) are passed in as parameters; note || '' is the identity on
strings since the empty string maps to itself. -/
def addExpense (doc : BudgetDoc) (dateStr : String) (amount : ℚ)
    (category note : String) (id : ℚ) (time : String) : BudgetDoc :=
  let bucket := (objGet doc.expenses dateStr).getD []
  { doc with
    expenses := objSet doc.expenses dateStr
      (bucket ++ [{ id := id, amount := amount, category := category,
                    note := note, time := time }]) }

/-- deleteExpense from app.js: if the bucket exists, filter out the matching
id, then delete the key if the remaining bucket is empty. -/
def deleteExpense (doc : BudgetDoc) (dateStr : String) (expenseId : ℚ) :
    BudgetDoc :=
  match objGet doc.expenses dateStr with
  | none => doc
  | some l =>
      let l2 := l.filter (fun e => e.id != expenseId)
      if l2 = [] then
        { doc with expenses := objDelete (objSet doc.expenses dateStr l2) dateStr }
      else
        { doc with expenses := objSet doc.expenses dateStr l2 }

/-! Aggregation (renderWeeklyView / renderHistoryView loops of app.js). -/

/-- Per-day totals of one week: the loop body getDayTotal(formatDate(addDays
(weekStart, i))) for the 7 days, given here as the list of date keys. -/
def weekTotals (doc : BudgetDoc) (days : List String) : List ℚ :=
  days.map (getDayTotal doc)

/-- daysWithData accumulator of the weekly loops: counts days whose total is
strictly positive (if dayTotal is greater than 0, increment). -/
def daysWithData (ts : List ℚ) : ℕ :=
  (ts.filter (fun t => decide (0 < t))).length

/-- dailyAvg of renderWeeklyView and avg of renderHistoryView:
total / daysWithData when daysWithData is positive, else 0. -/
def dailyAvg (ts : List ℚ) : ℚ :=
  if 0 < daysWithData ts then ts.sum / (daysWithData ts : ℚ) else 0

/-- Modelled from the claim wording of C7 (not from the source): the average
with the denominator counting days whose total is nonzero rather than
positive. Used only to compare the claim against the source computation. -/
def specAvgNonzeroDays (ts : List ℚ) : ℚ :=
  if (ts.filter (fun t => decide (t ≠ 0))).length ≠ 0 then
    ts.sum / (((ts.filter (fun t => decide (t ≠ 0))).length : ℚ))
  else 0

/-! Date utilities. Dates are modelled at day granularity as integers counting
days from an epoch whose day 0 falls on a Thursday, matching JavaScript where
new Date(0).getUTCDay() = 4; getDay() of the source is jsDay below, and
setDate arithmetic (which rolls months correctly) is integer addition. -/

/-- getDay() of the source date object: 0 = Sunday, ..., 6 = Saturday. -/
def jsDay (n : ℤ) : ℤ := (n + 4) % 7

/-- getMonday from app.js: shift the date by -day + (day === 0 ? -6 : 1),
then truncate the time of day (our day-granularity model needs no
truncation). -/
def getMonday (n : ℤ) : ℤ :=
  n - jsDay n + (if jsDay n = 0 then -6 else 1)

/-! Form handlers (validation guards of app.js). A parseFloat result is a
raw JavaScript number: NaN, one of the two infinities, or a finite value
(exact rational here). The handlers below run over documents whose numeric
fields are raw JS numbers, so that what the guards let through - including
an infinity - is stored exactly as the source stores it. -/

/-- A JavaScript number as produced by parseFloat. -/
inductive JsNum where
  | nan
  | posInf
  | negInf
  | finite (q : ℚ)
deriving DecidableEq

/-- The isNaN test of the source. -/
def JsNum.isNaN : JsNum → Bool
  | .nan => true
  | _ => false

/-- The JavaScript comparison x <= 0: false on NaN and +Infinity, true on
-Infinity. -/
def JsNum.le0 : JsNum → Bool
  | .nan => false
  | .posInf => false
  | .negInf => true
  | .finite q => decide (q ≤ 0)

/-- The JavaScript comparison x >= 0: false on NaN and -Infinity, true on
+Infinity. -/
def JsNum.ge0 : JsNum → Bool
  | .nan => false
  | .posInf => true
  | .negInf => false
  | .finite q => decide (0 ≤ q)

/-- An expense record whose amount is kept as a raw JS number, as pushed by
addExpense when the handler's parsed amount reaches it. -/
structure JsExpense where
  id : ℚ
  amount : JsNum
  category : String
  note : String
  time : String
deriving DecidableEq

/-- A budget document over raw JS numbers, the state the form handlers
mutate. -/
structure JsBudgetDoc where
  dailyGoal : JsNum
  customCategories : List String
  expenses : List (String × List JsExpense)
deriving DecidableEq

/-- defaultData() viewed over raw JS numbers. -/
def jsDefaultData : JsBudgetDoc :=
  { dailyGoal := .finite 50, customCategories := [], expenses := [] }

/-- addExpense from app.js at a raw JS-number amount: the push is
unconditional and stores the amount exactly as passed (also an infinity). -/
def addExpenseJs (doc : JsBudgetDoc) (dateStr : String) (amount : JsNum)
    (category note : String) (id : ℚ) (time : String) : JsBudgetDoc :=
  let bucket := (objGet doc.expenses dateStr).getD []
  { doc with
    expenses := objSet doc.expenses dateStr
      (bucket ++ [{ id := id, amount := amount, category := category,
                    note := note, time := time }]) }

/-- Expense-form submit handler: if (isNaN(amount) || amount <= 0) return,
else call addExpense with the parsed amount. The guard tests only isNaN and
sign, so +Infinity passes it and reaches addExpense. -/
def submitExpenseForm (doc : JsBudgetDoc) (dateStr : String)
    (parsedAmount : JsNum) (category note : String)
    (id : ℚ) (time : String) : JsBudgetDoc :=
  if parsedAmount.isNaN || parsedAmount.le0 then doc
  else addExpenseJs doc dateStr parsedAmount category note id time

/-- Save-settings click handler: adopt the parsed goal iff
!isNaN(goal) && goal >= 0 (true at +Infinity), then replace
customCategories by the textarea lines trimmed, lower-cased, with empty
entries dropped. -/
def saveSettings (doc : JsBudgetDoc) (parsedGoal : JsNum)
    (catLines : List String) : JsBudgetDoc :=
  let doc1 :=
    if !parsedGoal.isNaN && parsedGoal.ge0 then
      { doc with dailyGoal := parsedGoal }
    else doc
  { doc1 with
    customCategories :=
      (catLines.map (fun c => c.trim.toLower)).filter (fun c => c.length > 0) }

/-- Invariant of the data model: no date key maps to an empty expense list. -/
def noEmptyBuckets (m : Expenses) : Prop := ∀ p ∈ m, p.2 ≠ []

instance (m : Expenses) : Decidable (noEmptyBuckets m) := by
  unfold noEmptyBuckets; infer_instance

/-! JSON model for export and import. JSON.stringify followed by JSON.parse
is the identity on JSON trees (exact here since numbers are rationals), so
export and import are modelled at the level of JSON values. -/

/-- A JSON value; objects are association lists in property order. -/
inductive Json where
  | null
  | bool (b : Bool)
  | num (q : ℚ)
  | str (s : String)
  | arr (l : List Json)
  | obj (l : List (String × Json))

/-- Property read on a parsed JSON object; none models undefined. -/
def jLookup : Json → String → Option Json
  | .obj l, k => (l.find? (fun p => p.1 == k)).map (fun p => p.2)
  | _, _ => none

/-- JavaScript truthiness of a JSON value. -/
def truthy : Json → Bool
  | .null => false
  | .bool b => b
  | .num q => q != 0
  | .str s => s != ""
  | .arr _ => true
  | .obj _ => true

/-- Import-file change handler's validation and installation: when the
parsed object's expenses field is truthy and its dailyGoal is a number, the
parsed object itself becomes the active document (data = imported);
otherwise no change (an alert is shown). -/
def importData (j : Json) : Option Json :=
  match jLookup j "expenses" with
  | some e =>
      if truthy e then
        match jLookup j "dailyGoal" with
        | some (.num _) => some j
        | _ => none
      else none
  | none => none

/-- Export-data click handler: JSON.stringify(data, null, 2) serializes the
in-memory document with its three fields in declaration order. -/
def encodeExpense (e : Expense) : Json :=
  .obj [("id", .num e.id), ("amount", .num e.amount),
        ("category", .str e.category), ("note", .str e.note),
        ("time", .str e.time)]

/-- JSON shape of the whole exported document. -/
def encodeDoc (d : BudgetDoc) : Json :=
  .obj [("dailyGoal", .num d.dailyGoal),
        ("customCategories", .arr (d.customCategories.map .str)),
        ("expenses",
          .obj (d.expenses.map (fun p => (p.1, .arr (p.2.map encodeExpense)))))]

/-- Reading an expense record back from parsed JSON, via the field accesses
the app performs on expense objects. -/
def decodeExpense (j : Json) : Option Expense :=
  match jLookup j "id", jLookup j "amount", jLookup j "category",
      jLookup j "note", jLookup j "time" with
  | some (.num id), some (.num amount), some (.str category),
      some (.str note), some (.str time) =>
      some { id := id, amount := amount, category := category,
             note := note, time := time }
  | _, _, _, _, _ => none

/-- Reading a bucket (array of expenses) back from parsed JSON. -/
def decodeExpList : List Json → Option (List Expense)
  | [] => some []
  | j :: t =>
      match decodeExpense j, decodeExpList t with
      | some e, some es => some (e :: es)
      | _, _ => none

/-- Reading the expenses object back from parsed JSON. -/
def decodePairs : List (String × Json) → Option Expenses
  | [] => some []
  | (k, .arr l) :: t =>
      match decodeExpList l, decodePairs t with
      | some b, some m => some ((k, b) :: m)
      | _, _ => none
  | _ :: _ => none

/-- Reading a string array back from parsed JSON. -/
def decodeStrList : List Json → Option (List String)
  | [] => some []
  | .str s :: t => (decodeStrList t).map (fun l => s :: l)
  | _ :: _ => none

/-- Reading the whole document back from parsed JSON, via the field accesses
the app performs on the installed document. -/
def decodeDoc (j : Json) : Option BudgetDoc :=
  match jLookup j "dailyGoal", jLookup j "customCategories",
      jLookup j "expenses" with
  | some (.num g), some (.arr cats), some (.obj ex) =>
      match decodeStrList cats, decodePairs ex with
      | some cs, some m =>
          some { dailyGoal := g, customCategories := cs, expenses := m }
      | _, _ => none
  | _, _, _ => none

/-! Sync/cache coordinator: the module-level state of app.js and its event
handlers as explicit transitions. -/

/-- The shape of a Firestore document read, before the ?? 50 / || [] / || \x7b\x7d
normalization applied by the load functions. -/
structure RemoteDoc where
  dailyGoal : Option ℚ
  customCategories : Option (List String)
  expenses : Option Expenses
deriving DecidableEq

/-- Outcome of one Firestore get: the document exists, it does not exist
(doc.exists is false), or the get throws (network failure). -/
inductive Fetch where
  | found (d : RemoteDoc)
  | notFound
  | err
deriving DecidableEq

/-- Field normalization performed by loadPersonalBudget and loadSharedBudget
on an existing document: d.dailyGoal ?? 50, d.customCategories || [],
d.expenses || \x7b\x7d. -/
def normalizeRemote (d : RemoteDoc) : BudgetDoc :=
  { dailyGoal := d.dailyGoal.getD 50,
    customCategories := d.customCategories.getD [],
    expenses := d.expenses.getD [] }

/-- The module-level mutable state of app.js relevant to persistence. The
localCache field is the contents of the localStorage key (defaultData when
the key is absent, matching loadFromLocalStorage); pendingTimer is whether
saveTimeout holds a scheduled, unfired debounce callback; remoteWrites is the
log of Firestore writes performed, each tagged with its destination
(none = users/\x7buid\x7d, some id = budgets/\x7bid\x7d). -/
structure SyncState where
  data : BudgetDoc
  localCache : BudgetDoc
  activeBudgetId : Option String
  signedIn : Bool
  pendingTimer : Bool
  remoteWrites : List (Option String × BudgetDoc)
deriving DecidableEq

/-- saveData from app.js: adopt the passed document, write localStorage
synchronously only when no shared budget is active, and if signed in replace
the single debounce timer (clearTimeout then setTimeout). -/
def saveDataStep (s : SyncState) (d : BudgetDoc) : SyncState :=
  let s1 := { s with data := d }
  let s2 :=
    if s1.activeBudgetId = none then { s1 with localCache := s1.data } else s1
  if s2.signedIn then { s2 with pendingTimer := true } else s2

/-- The debounce callback firing: it reads the module variables data and
activeBudgetId at fire time and performs one remote write; only meaningful
when a timer is pending. -/
def timerFire (s : SyncState) : SyncState :=
  if s.pendingTimer then
    { s with pendingTimer := false,
             remoteWrites := s.remoteWrites ++ [(s.activeBudgetId, s.data)] }
  else s

/-- loadSharedBudget from app.js: an existing document is normalized and
adopted; a missing document or a thrown get silently yields defaultData. -/
def loadSharedBudgetData : Fetch → BudgetDoc
  | .found d => normalizeRemote d
  | .notFound => defaultData
  | .err => defaultData

/-- loadPersonalBudget from app.js: adopt the remote document if it exists;
if it does not exist, migrate a non-trivial localStorage document (and call
saveData on it) or fall back to defaultData; on a thrown get adopt the
localStorage contents. In every branch localStorage is finally overwritten
with the resolved document. -/
def loadPersonalBudgetStep (s : SyncState) (f : Fetch) : SyncState :=
  let s1 :=
    match f with
    | .found d => { s with data := normalizeRemote d }
    | .notFound =>
        if s.localCache.expenses ≠ [] then
          let s2 := { s with data := s.localCache }
          saveDataStep s2 s2.data
        else
          { s with data := defaultData }
    | .err => { s with data := s.localCache }
  { s1 with localCache := s1.data }

/-- switchBudget from app.js: set activeBudgetId, then load the newly active
document (shared budgets from Firestore, personal via loadPersonalBudget).
The fetch outcome of the load is a parameter. Note that the pending debounce
timer is not touched here. -/
def switchBudgetStep (s : SyncState) (budgetId : Option String) (f : Fetch) :
    SyncState :=
  let s1 := { s with activeBudgetId := budgetId }
  match budgetId with
  | some _ => { s1 with data := loadSharedBudgetData f }
  | none => loadPersonalBudgetStep s1 f

/-! Concrete inputs used to evaluate the model. -/

/-- A state signed in on the personal budget with clean default data. -/
def c1Start : SyncState :=
  { data := defaultData, localCache := defaultData, activeBudgetId := none,
    signedIn := true, pendingTimer := false, remoteWrites := [] }

/-- The personal document right after one expense entry. -/
def c1Edited : BudgetDoc :=
  addExpense defaultData "2026-02-16" 5 "dining" "" 1 "T"

/-- State after the edit ran through saveData (cache written, timer set). -/
def c1AfterEdit : SyncState := saveDataStep c1Start c1Edited

/-- A shared budget document as stored remotely. -/
def c1SharedRemote : RemoteDoc :=
  { dailyGoal := some 20, customCategories := some [], expenses := some [] }

/-- State after switching to shared budget B while the debounce is pending. -/
def c1AfterSwitch : SyncState :=
  switchBudgetStep c1AfterEdit (some "B") (.found c1SharedRemote)

/-- State after the debounce timer then fires. -/
def c1AfterFire : SyncState := timerFire c1AfterSwitch

/-- A state signed in with a shared budget active. -/
def c2SharedState : SyncState :=
  { data := defaultData, localCache := defaultData,
    activeBudgetId := some "B", signedIn := true, pendingTimer := false,
    remoteWrites := [] }

/-- A document produced by one expense entry, for the cache claims. -/
def c2Edited : BudgetDoc :=
  addExpense defaultData "2026-02-16" 7 "gas" "" 2 "T"

/-- A document with one single-expense bucket, for the delete claims. -/
def c5Doc : BudgetDoc :=
  { dailyGoal := 50, customCategories := [],
    expenses := [("2026-01-01",
      [{ id := 7, amount := 3, category := "gas", note := "", time := "T" }])] }

/-- A document holding an empty bucket, as installable by import. -/
def c5BadDoc : BudgetDoc :=
  { dailyGoal := 5, customCategories := [], expenses := [("2026-01-01", [])] }

/-- A document holding an empty bucket, for the invariant claim. -/
def c6BadDoc : BudgetDoc :=
  { dailyGoal := 5, customCategories := [], expenses := [("2026-02-02", [])] }

/-- A document whose only expense of the week is negative (importable). -/
def c7NegDoc : BudgetDoc :=
  { dailyGoal := 50, customCategories := [],
    expenses := [("2026-03-02",
      [{ id := 1, amount := -5, category := "other", note := "", time := "T" }])] }

/-- The date keys of the Monday-to-Sunday week of 2026-03-02. -/
def c7Week : List String :=
  ["2026-03-02", "2026-03-03", "2026-03-04", "2026-03-05",
   "2026-03-06", "2026-03-07", "2026-03-08"]

/-- A document spending 10 and 20 on two days of that week. -/
def c7PosDoc : BudgetDoc :=
  { dailyGoal := 50, customCategories := [],
    expenses := [("2026-03-02",
        [{ id := 1, amount := 10, category := "gas", note := "", time := "T" }]),
      ("2026-03-05",
        [{ id := 2, amount := 20, category := "gas", note := "", time := "T" }])] }

/-- A state signed in on the personal budget, for the load-failure claim. -/
def c10State : SyncState :=
  { data := c1Edited, localCache := c1Edited, activeBudgetId := none,
    signedIn := true, pendingTimer := false, remoteWrites := [] }

/-! Lemmas about the JS-object operations. -/

theorem objGet_objSet_self (m : Expenses) (k : String) (v : List Expense) :
    objGet (objSet m k v) k = some v := by
  induction m with
  | nil => simp [objSet, objGet]
  | cons p t ih =>
      by_cases h : p.1 = k
      · simp [objSet, objGet, h]
      · simp only [objSet, objGet, beq_iff_eq, h, if_false]
        simpa [objGet, h] using ih

theorem objGet_objDelete_self (m : Expenses) (k : String) :
    objGet (objDelete m k) k = none := by
  induction m with
  | nil => simp [objDelete, objGet]
  | cons p t ih =>
      by_cases h : p.1 = k
      · simpa [objDelete, h] using ih
      · simp only [objDelete, beq_iff_eq, h, if_false]
        simpa [objGet, h] using ih

theorem objSet_of_objGet_eq (m : Expenses) (k : String) (v : List Expense)
    (h : objGet m k = some v) : objSet m k v = m := by
  induction m with
  | nil => simp [objGet] at h
  | cons p t ih =>
      by_cases hp : p.1 = k
      · simp only [objGet, beq_iff_eq, hp, if_true, Option.some.injEq] at h
        subst hp
        simp [objSet, ← h]
      · simp only [objGet, beq_iff_eq, hp, if_false] at h
        simp [objSet, hp, ih h]

theorem objGet_mem (m : Expenses) (k : String) (l : List Expense)
    (h : objGet m k = some l) : (k, l) ∈ m := by
  induction m with
  | nil => simp [objGet] at h
  | cons p t ih =>
      by_cases hp : p.1 = k
      · simp only [objGet, beq_iff_eq, hp, if_true, Option.some.injEq] at h
        subst hp
        subst h
        exact List.mem_cons_self p t
      · simp only [objGet, beq_iff_eq, hp, if_false] at h
        exact List.mem_cons_of_mem _ (ih h)

theorem mem_objSet (m : Expenses) (k : String) (v : List Expense)
    (q : String × List Expense) (hq : q ∈ objSet m k v) :
    q = (k, v) ∨ q ∈ m := by
  induction m with
  | nil => simp [objSet] at hq; simp [hq]
  | cons p t ih =>
      by_cases hp : p.1 = k
      · simp only [objSet, beq_iff_eq, hp, if_true, List.mem_cons] at hq
        rcases hq with h | h
        · exact Or.inl h
        · exact Or.inr (List.mem_cons_of_mem _ h)
      · simp only [objSet, beq_iff_eq, hp, if_false, List.mem_cons] at hq
        rcases hq with h | h
        · exact Or.inr (h ▸ List.mem_cons_self p t)
        · rcases ih h with h2 | h2
          · exact Or.inl h2
          · exact Or.inr (List.mem_cons_of_mem _ h2)

theorem mem_objDelete (m : Expenses) (k : String)
    (q : String × List Expense) (hq : q ∈ objDelete m k) :
    q ∈ m ∧ q.1 ≠ k := by
  induction m with
  | nil => simp [objDelete] at hq
  | cons p t ih =>
      by_cases hp : p.1 = k
      · simp only [objDelete, beq_iff_eq, hp, if_true] at hq
        exact ⟨List.mem_cons_of_mem _ (ih hq).1, (ih hq).2⟩
      · simp only [objDelete, beq_iff_eq, hp, if_false, List.mem_cons] at hq
        rcases hq with h | h
        · exact ⟨h ▸ List.mem_cons_self p t, h ▸ hp⟩
        · exact ⟨List.mem_cons_of_mem _ (ih h).1, (ih h).2⟩

theorem deleteExpense_of_objGet_none (doc : BudgetDoc) (dateStr : String)
    (eid : ℚ) (hg : objGet doc.expenses dateStr = none) :
    deleteExpense doc dateStr eid = doc := by
  unfold deleteExpense
  rw [hg]

theorem deleteExpense_of_objGet_some (doc : BudgetDoc) (dateStr : String)
    (eid : ℚ) (l : List Expense) (hg : objGet doc.expenses dateStr = some l) :
    (deleteExpense doc dateStr eid).expenses =
      if l.filter (fun e => e.id != eid) = [] then
        objDelete (objSet doc.expenses dateStr
          (l.filter (fun e => e.id != eid))) dateStr
      else objSet doc.expenses dateStr (l.filter (fun e => e.id != eid)) := by
  simp only [deleteExpense, hg]
  rw [apply_ite (fun d : BudgetDoc => d.expenses)]

/-- C3: for every document, date key and amount greater than 0, addExpense
followed by getDayTotal yields a total exactly amount greater than before,
and getDayTotal of a date key with no bucket is 0. -/
theorem C3_addExpense_dayTotal (doc : BudgetDoc) (dateStr : String) (a : ℚ)
    (category note : String) (id : ℚ) (time : String) (_h : 0 < a) :
    getDayTotal (addExpense doc dateStr a category note id time) dateStr =
      getDayTotal doc dateStr + a ∧
    ∀ (d : BudgetDoc) (k : String), objGet d.expenses k = none →
      getDayTotal d k = 0 := by
  constructor
  · unfold getDayTotal getExpensesForDate addExpense
    simp only [objGet_objSet_self, Option.getD_some]
    rw [List.foldl_append]
    simp
  · intro d k hk
    unfold getDayTotal getExpensesForDate
    simp [hk]

/-- Witness for C3 at a concrete document: adding 12.50 on an empty day of
the default document raises that day's total from 0 by exactly 12.50. -/
theorem C3_addExpense_dayTotal_witness :
    getDayTotal (addExpense defaultData "2026-02-15" (25/2) "groceries" "Milk" 1 "T")
        "2026-02-15" =
      getDayTotal defaultData "2026-02-15" + 25/2 :=
  (C3_addExpense_dayTotal defaultData "2026-02-15" (25/2) "groceries" "Milk" 1 "T"
    (by norm_num)).1

/-- C5 as stated is refuted: on a document holding an empty bucket (which
the import handler can install), deleting an id absent from that bucket is
not a no-op: the empty bucket's key is removed, changing the mapping. -/
theorem C5_counterexample :
    (∀ e ∈ getExpensesForDate c5BadDoc "2026-01-01", e.id ≠ (1 : ℚ)) ∧
    (deleteExpense c5BadDoc "2026-01-01" 1).expenses ≠ c5BadDoc.expenses := by
  decide

/-- C5 (amended): on documents satisfying the no-empty-bucket invariant,
deleting an id absent from the date key's bucket (or deleting under a date
key with no bucket) leaves the expenses mapping unchanged, and deleting the
last expense of a bucket removes the bucket key entirely, so the subsequent
lookup is undefined rather than an empty list. -/
theorem C5_deleteExpense_idempotent (doc : BudgetDoc) (dateStr : String)
    (eid : ℚ) (hinv : noEmptyBuckets doc.expenses) :
    ((∀ e ∈ getExpensesForDate doc dateStr, e.id ≠ eid) →
       (deleteExpense doc dateStr eid).expenses = doc.expenses) ∧
    (∀ e, getExpensesForDate doc dateStr = [e] → e.id = eid →
       objGet (deleteExpense doc dateStr eid).expenses dateStr = none) := by
  constructor
  · intro hno
    unfold deleteExpense
    cases hg : objGet doc.expenses dateStr with
    | none => rfl
    | some l =>
        have hl : getExpensesForDate doc dateStr = l := by
          simp [getExpensesForDate, hg]
        have hfix : l.filter (fun e => e.id != eid) = l := by
          apply List.filter_eq_self.mpr
          intro e he
          have := hno e (hl ▸ he)
          simpa [bne_iff_ne] using this
        have hne : l ≠ [] := hinv (dateStr, l) (objGet_mem _ _ _ hg)
        simp only [hfix, if_neg hne]
        simp [objSet_of_objGet_eq _ _ _ hg]
  · intro e he heid
    have hg : objGet doc.expenses dateStr = some [e] := by
      unfold getExpensesForDate at he
      cases hg : objGet doc.expenses dateStr with
      | none => simp [hg] at he
      | some l => simp [hg] at he; simp [he]
    unfold deleteExpense
    rw [hg]
    have : [e].filter (fun x => x.id != eid) = [] := by
      simp [heid]
    simp only [this, if_pos rfl]
    exact objGet_objDelete_self _ _

/-- Witness for C5 at a concrete document with one single-expense bucket:
deleting an absent id leaves the mapping unchanged, and deleting the lone
expense leaves the date key undefined. -/
theorem C5_deleteExpense_idempotent_witness :
    (deleteExpense c5Doc "2026-01-01" 99).expenses = c5Doc.expenses ∧
    objGet (deleteExpense c5Doc "2026-01-01" 7).expenses "2026-01-01" = none :=
  ⟨(C5_deleteExpense_idempotent c5Doc "2026-01-01" 99 (by decide)).1 (by decide),
   (C5_deleteExpense_idempotent c5Doc "2026-01-01" 7 (by decide)).2
     { id := 7, amount := 3, category := "gas", note := "", time := "T" }
     (by decide) (by decide)⟩

/-- C8: getMonday returns a Monday on or before the given date, at most six
days earlier, and every date of a Monday-to-Sunday span is sent to the same
Monday (Sunday counting as the seventh day of the preceding Monday's week). -/
theorem C8_getMonday_week_start (n : ℤ) :
    jsDay (getMonday n) = 1 ∧ getMonday n ≤ n ∧ n - getMonday n < 7 ∧
    ∀ k : ℤ, 0 ≤ k → k < 7 → getMonday (getMonday n + k) = getMonday n := by
  refine ⟨?_, ?_, ?_, ?_⟩
  · unfold getMonday jsDay
    split_ifs <;> omega
  · unfold getMonday jsDay
    split_ifs <;> omega
  · unfold getMonday jsDay
    split_ifs <;> omega
  · intro k hk0 hk7
    unfold getMonday jsDay
    split_ifs <;> omega

/-- Witness for C8: day 20000 of the epoch (a Saturday); its Monday is a
Monday, and three days past that Monday maps back to the same Monday. -/
theorem C8_getMonday_week_start_witness :
    jsDay (getMonday 20000) = 1 ∧
    getMonday (getMonday 20000 + 3) = getMonday 20000 :=
  ⟨(C8_getMonday_week_start 20000).1,
   (C8_getMonday_week_start 20000).2.2.2 3 (by norm_num) (by norm_num)⟩

/-- C4 as stated is refuted: the source guards test only isNaN and sign,
never finiteness. A parsed amount of +Infinity (the parseFloat overflow of
an input such as 9e999) passes isNaN(amount) || amount <= 0 and is appended
to the document by addExpense, and a parsed goal of +Infinity passes
!isNaN(goal) && goal >= 0 and replaces the daily goal - neither non-finite
input is a no-op. -/
theorem C4_counterexample :
    submitExpenseForm jsDefaultData "2026-02-15" JsNum.posInf "gas" "" 1 "T"
        ≠ jsDefaultData ∧
    (saveSettings jsDefaultData JsNum.posInf []).dailyGoal
        ≠ jsDefaultData.dailyGoal := by
  decide

/-- C4 (amended): the handlers are silent no-ops on NaN and on non-positive
values - the expense form leaves the document unchanged when the parsed
amount is NaN, -Infinity or a finite value at most 0, and the settings
handler leaves the goal unchanged when the parsed goal is NaN, -Infinity or
a finite negative value - but the guards do not test finiteness, so
+Infinity is accepted by both. -/
theorem C4_guard_noop (doc : JsBudgetDoc) (dateStr category note : String)
    (id : ℚ) (time : String) (a g : JsNum) (cats : List String)
    (ha : a = .nan ∨ a = .negInf ∨ ∃ q, a = .finite q ∧ q ≤ 0)
    (hg : g = .nan ∨ g = .negInf ∨ ∃ q, g = .finite q ∧ q < 0) :
    submitExpenseForm doc dateStr a category note id time = doc ∧
    (saveSettings doc g cats).dailyGoal = doc.dailyGoal := by
  constructor
  · rcases ha with rfl | rfl | ⟨q, rfl, hq⟩
    · rfl
    · rfl
    · simp [submitExpenseForm, JsNum.isNaN, JsNum.le0, hq]
  · rcases hg with rfl | rfl | ⟨q, rfl, hq⟩
    · simp [saveSettings, JsNum.isNaN, JsNum.ge0]
    · simp [saveSettings, JsNum.isNaN, JsNum.ge0]
    · simp [saveSettings, JsNum.isNaN, JsNum.ge0, not_le.mpr hq]

/-- Witness for C4 (amended): a finite negative amount entry leaves the
default document unchanged, and a NaN goal leaves the goal unchanged. -/
theorem C4_guard_noop_witness :
    submitExpenseForm jsDefaultData "2026-02-15" (JsNum.finite (-3)) "gas" "" 1 "T"
        = jsDefaultData ∧
    (saveSettings jsDefaultData JsNum.nan ["A", ""]).dailyGoal =
      jsDefaultData.dailyGoal :=
  C4_guard_noop jsDefaultData "2026-02-15" "gas" "" 1 "T"
    (JsNum.finite (-3)) JsNum.nan ["A", ""]
    (Or.inr (Or.inr ⟨-3, rfl, by norm_num⟩)) (Or.inl rfl)

/-- C6 as stated is refuted for import: a backup whose expenses object maps a
date key to an empty list passes the import validation and is installed
verbatim, so the no-empty-bucket invariant does not survive import. -/
theorem C6_counterexample :
    importData (encodeDoc c6BadDoc) = some (encodeDoc c6BadDoc) ∧
    decodeDoc (encodeDoc c6BadDoc) = some c6BadDoc ∧
    ¬ noEmptyBuckets c6BadDoc.expenses :=
  ⟨rfl, rfl, by decide⟩

/-- C6 (amended): the no-empty-bucket invariant is preserved by addExpense,
deleteExpense and reset to the default document; import installs the parsed
document verbatim (it never prunes), so it preserves the invariant only when
the imported file itself has no empty bucket. -/
theorem C6_no_empty_buckets (doc : BudgetDoc) (h : noEmptyBuckets doc.expenses) :
    (∀ dateStr a category note id time,
       noEmptyBuckets (addExpense doc dateStr a category note id time).expenses) ∧
    (∀ dateStr eid, noEmptyBuckets (deleteExpense doc dateStr eid).expenses) ∧
    noEmptyBuckets defaultData.expenses ∧
    (∀ j, importData j = none ∨ importData j = some j) := by
  refine ⟨?_, ?_, by decide, ?_⟩
  · intro dateStr a category note id time q hq
    rcases mem_objSet _ _ _ _ hq with rfl | hm
    · simp
    · exact h q hm
  · intro dateStr eid q hq
    cases hg : objGet doc.expenses dateStr with
    | none =>
        rw [deleteExpense_of_objGet_none doc dateStr eid hg] at hq
        exact h q hq
    | some l =>
        rw [deleteExpense_of_objGet_some doc dateStr eid l hg] at hq
        by_cases he : l.filter (fun e => e.id != eid) = []
        · rw [if_pos he] at hq
          have h1 := mem_objDelete _ _ _ hq
          rcases mem_objSet _ _ _ _ h1.1 with rfl | hm
          · exact absurd rfl h1.2
          · exact h q hm
        · rw [if_neg he] at hq
          rcases mem_objSet _ _ _ _ hq with rfl | hm
          · exact he
          · exact h q hm
  · intro j
    unfold importData
    cases he : jLookup j "expenses" with
    | none => exact Or.inl rfl
    | some e =>
        by_cases ht : truthy e = true
        · cases hd : jLookup j "dailyGoal" with
          | none => simp [ht]
          | some jd => cases jd <;> simp [ht]
        · simp [ht]

/-- Witness for C6 starting from the default document (which satisfies the
invariant): one addition and one deletion both keep the invariant. -/
theorem C6_no_empty_buckets_witness :
    noEmptyBuckets (addExpense defaultData "2026-03-01" 4 "other" "" 9 "T").expenses ∧
    noEmptyBuckets (deleteExpense defaultData "2026-03-01" 9).expenses :=
  ⟨(C6_no_empty_buckets defaultData (by decide)).1 "2026-03-01" 4 "other" "" 9 "T",
   (C6_no_empty_buckets defaultData (by decide)).2.1 "2026-03-01" 9⟩

theorem weekTotals_c7NegDoc :
    weekTotals c7NegDoc c7Week = [-5, 0, 0, 0, 0, 0, 0] := by
  simp [weekTotals, c7Week, c7NegDoc, getDayTotal, getExpensesForDate, objGet]

theorem weekTotals_c7PosDoc :
    weekTotals c7PosDoc c7Week = [10, 0, 0, 20, 0, 0, 0] := by
  simp [weekTotals, c7Week, c7PosDoc, getDayTotal, getExpensesForDate, objGet]

theorem weekTotals_defaultData :
    weekTotals defaultData c7Week = [0, 0, 0, 0, 0, 0, 0] := by
  simp [weekTotals, c7Week, defaultData, getDayTotal, getExpensesForDate, objGet]

theorem daysWithData_c7Pos : daysWithData (weekTotals c7PosDoc c7Week) = 2 := by
  rw [weekTotals_c7PosDoc]
  norm_num [daysWithData, List.filter, decide_eq_true_eq]

theorem daysWithData_c7Zero :
    daysWithData (weekTotals defaultData c7Week) = 0 := by
  rw [weekTotals_defaultData]
  norm_num [daysWithData, List.filter, decide_eq_true_eq]

/-- C7 as stated is refuted: the code counts only days with strictly positive
total in the denominator, not days with nonzero total. A document whose only
spending of the week is a negative amount (accepted by import) has weekly
average 0 in the code, while the claim's nonzero-day formula gives -5. -/
theorem C7_counterexample :
    importData (encodeDoc c7NegDoc) = some (encodeDoc c7NegDoc) ∧
    dailyAvg (weekTotals c7NegDoc c7Week) = 0 ∧
    specAvgNonzeroDays (weekTotals c7NegDoc c7Week) = -5 := by
  refine ⟨rfl, ?_, ?_⟩
  · rw [weekTotals_c7NegDoc]
    norm_num [dailyAvg, daysWithData, List.filter, decide_eq_true_eq]
  · rw [weekTotals_c7NegDoc]
    norm_num [specAvgNonzeroDays, List.filter, decide_eq_true_eq,
      List.sum_cons, List.sum_nil]

/-- C7 (amended): the weekly dailyAverage equals the week's total divided by
the number of days with strictly positive total, and equals 0 when no day of
the week has positive total, so the division never occurs with denominator 0;
for daily totals 10, 0, 0, 20, 0, 0, 0 the average is 15. -/
theorem C7_weekly_average (doc : BudgetDoc) (days : List String) :
    (0 < daysWithData (weekTotals doc days) →
       dailyAvg (weekTotals doc days) =
         (weekTotals doc days).sum / (daysWithData (weekTotals doc days) : ℚ)) ∧
    (daysWithData (weekTotals doc days) = 0 →
       dailyAvg (weekTotals doc days) = 0) ∧
    dailyAvg [10, 0, 0, 20, 0, 0, 0] = 15 := by
  refine ⟨fun h => ?_, fun h => ?_,
    by norm_num [dailyAvg, daysWithData, List.filter, decide_eq_true_eq,
      List.sum_cons, List.sum_nil]⟩
  · rw [dailyAvg, if_pos h]
  · rw [dailyAvg, if_neg (by omega)]

/-- Witness for C7: a week spending 10 and 20 on two days averages
30 / 2 = 15, and a week with no spending averages 0. -/
theorem C7_weekly_average_witness :
    dailyAvg (weekTotals c7PosDoc c7Week) =
      (weekTotals c7PosDoc c7Week).sum /
        (daysWithData (weekTotals c7PosDoc c7Week) : ℚ) ∧
    dailyAvg (weekTotals defaultData c7Week) = 0 :=
  ⟨(C7_weekly_average c7PosDoc c7Week).1 (by rw [daysWithData_c7Pos]; norm_num),
   (C7_weekly_average defaultData c7Week).2.1 daysWithData_c7Zero⟩

/-- C1 as stated is refuted: switchBudget never clears saveTimeout, so a
debounce timer started by an edit to the personal budget is still pending
after switching to shared budget B, and when it fires it performs a remote
write (here of B's data to B), while the edit is still present in the
personal budget's local cache entry. -/
theorem C1_counterexample :
    c1AfterEdit.pendingTimer = true ∧
    c1AfterEdit.activeBudgetId = none ∧
    c1AfterSwitch.pendingTimer = true ∧
    c1AfterSwitch.localCache = c1Edited ∧
    c1AfterFire.remoteWrites =
      [(some "B",
        { dailyGoal := 20, customCategories := [], expenses := [] })] := by
  decide

/-- C1 (amended): switching the active budget does not cancel the pending
debounced remote write: the timer remains pending across every switchBudget
call, and when it fires it performs one remote write of the then-current
in-memory document to the then-active budget. -/
theorem C1_switch_keeps_pending_write (s : SyncState) (b : Option String)
    (f : Fetch) (h : s.pendingTimer = true) :
    (switchBudgetStep s b f).pendingTimer = true ∧
    (timerFire s).remoteWrites =
      s.remoteWrites ++ [(s.activeBudgetId, s.data)] := by
  constructor
  · cases b with
    | some id => simpa [switchBudgetStep] using h
    | none =>
        cases f with
        | found d => simp [switchBudgetStep, loadPersonalBudgetStep, h]
        | notFound =>
            simp only [switchBudgetStep, loadPersonalBudgetStep]
            split_ifs with h1
            · simp only [saveDataStep]
              split_ifs <;> simp [h]
            · simp [h]
        | err => simp [switchBudgetStep, loadPersonalBudgetStep, h]
  · simp [timerFire, h]

/-- Witness for C1 (amended) at the concrete post-edit state: the timer is
still pending after the switch, and firing it appends one remote write. -/
theorem C1_switch_keeps_pending_write_witness :
    (switchBudgetStep c1AfterEdit (some "B") (.found c1SharedRemote)).pendingTimer
        = true ∧
    (timerFire c1AfterEdit).remoteWrites =
      c1AfterEdit.remoteWrites ++ [(c1AfterEdit.activeBudgetId, c1AfterEdit.data)] :=
  C1_switch_keeps_pending_write c1AfterEdit (some "B") (.found c1SharedRemote)
    (by decide)

/-- C2 as stated is refuted: with a shared budget active, saveData updates
the in-memory document but does not write the local cache, so the cache lags
behind in-memory state. -/
theorem C2_counterexample :
    (saveDataStep c2SharedState c2Edited).data = c2Edited ∧
    (saveDataStep c2SharedState c2Edited).localCache ≠ c2Edited := by
  decide

/-- C2 (amended): saveData always adopts the mutated document in memory and
writes the local cache synchronously in the same step, but only when the
personal budget is active; with a shared budget active the local cache is
left untouched. -/
theorem C2_cache_written_for_personal_only (s : SyncState) (d : BudgetDoc) :
    (saveDataStep s d).data = d ∧
    (s.activeBudgetId = none → (saveDataStep s d).localCache = d) ∧
    (s.activeBudgetId ≠ none → (saveDataStep s d).localCache = s.localCache) := by
  refine ⟨?_, fun h => ?_, fun h => ?_⟩
  · simp only [saveDataStep]
    split_ifs <;> rfl
  · simp only [saveDataStep, h]
    split_ifs <;> rfl
  · simp only [saveDataStep]
    split_ifs <;> simp_all

/-- Witness for C2 (amended) at the personal-budget start state: the cache
equals the mutated document right after the synchronous step. -/
theorem C2_cache_written_for_personal_only_witness :
    (saveDataStep c1Start c2Edited).data = c2Edited ∧
    (saveDataStep c1Start c2Edited).localCache = c2Edited :=
  ⟨(C2_cache_written_for_personal_only c1Start c2Edited).1,
   (C2_cache_written_for_personal_only c1Start c2Edited).2.1 rfl⟩

theorem decodeExpense_encodeExpense (e : Expense) :
    decodeExpense (encodeExpense e) = some e := rfl

theorem decodeExpList_encode (l : List Expense) :
    decodeExpList (l.map encodeExpense) = some l := by
  induction l with
  | nil => rfl
  | cons e t ih => simp [decodeExpList, decodeExpense_encodeExpense, ih]

theorem decodePairs_encode (m : Expenses) :
    decodePairs (m.map (fun p => (p.1, .arr (p.2.map encodeExpense)))) = some m := by
  induction m with
  | nil => rfl
  | cons p t ih =>
      obtain ⟨k, b⟩ := p
      simp [decodePairs, decodeExpList_encode, ih]

theorem decodeStrList_encode (l : List String) :
    decodeStrList (l.map .str) = some l := by
  induction l with
  | nil => rfl
  | cons s t ih => simp [decodeStrList, ih]

/-- C9: export then import round-trips: the exported JSON of any document
passes the import validation (its expenses object is truthy and its
dailyGoal is a number), is installed verbatim as the active document, and
reading it back yields a document equal to the original. -/
theorem C9_export_import_roundtrip (d : BudgetDoc) :
    importData (encodeDoc d) = some (encodeDoc d) ∧
    decodeDoc (encodeDoc d) = some d := by
  constructor
  · rfl
  · have h1 : jLookup (encodeDoc d) "dailyGoal" = some (.num d.dailyGoal) := rfl
    have h2 : jLookup (encodeDoc d) "customCategories" =
        some (.arr (d.customCategories.map .str)) := rfl
    have h3 : jLookup (encodeDoc d) "expenses" =
        some (.obj (d.expenses.map (fun p => (p.1, .arr (p.2.map encodeExpense))))) :=
      rfl
    unfold decodeDoc
    rw [h1, h2, h3]
    simp [decodeStrList_encode, decodePairs_encode]

/-- C10: if loading a shared budget finds no remote document or the fetch
throws, switching to that budget silently installs the default document
(goal 50, no custom categories, no expenses) regardless of the previously
loaded in-memory document, performs no remote write, and leaves the local
cache untouched; the model function is total, so no error is surfaced. -/
theorem C10_shared_load_failure_defaults (s : SyncState) (b : String)
    (f : Fetch) (h : f = Fetch.notFound ∨ f = Fetch.err) :
    (switchBudgetStep s (some b) f).data = defaultData ∧
    defaultData.dailyGoal = 50 ∧
    defaultData.customCategories = [] ∧
    defaultData.expenses = [] ∧
    (switchBudgetStep s (some b) f).localCache = s.localCache ∧
    (switchBudgetStep s (some b) f).remoteWrites = s.remoteWrites := by
  rcases h with rfl | rfl <;> exact ⟨rfl, rfl, rfl, rfl, rfl, rfl⟩

/-- Witness for C10 at a state whose in-memory document holds an edit:
switching to a missing shared budget discards it for the default document. -/
theorem C10_shared_load_failure_defaults_witness :
    (switchBudgetStep c10State (some "B") Fetch.notFound).data = defaultData ∧
    (switchBudgetStep c10State (some "B") Fetch.notFound).localCache =
      c10State.localCache :=
  ⟨(C10_shared_load_failure_defaults c10State "B" Fetch.notFound (Or.inl rfl)).1,
   (C10_shared_load_failure_defaults c10State "B" Fetch.notFound (Or.inl rfl)).2.2.2.2.1⟩

end BudgetApp
